import Mathlib

/-!
Verification development for the rebaser repository: a shallow embedding of
the safe-rebase propagation engine (src/main.rs, src/all.rs, src/git.rs,
src/git/repository.rs, src/git/remote.rs) together with theorems settling
the specification claims about it.

Commits are modelled as natural-number ids, the commit DAG as an explicit
finite parent table, references as an association list from short names to
commit ids, and the external collaborators (libgit2 rebase replay, remote
push acceptance, safe-checkout conflict detection) as explicit inputs,
exactly as the source consumes their results.
-/

set_option maxRecDepth 4000

/-- Commit ids stand for git object ids. -/
abbrev CommitId := Nat

/-- The local object database: the finite commit DAG, as a parent table.
The commits list bounds the graph for the fuelled ancestry walk. -/
structure CommitGraph where
  commits : List CommitId
  parentsList : List (CommitId × List CommitId)
deriving DecidableEq

/-- Parents of a commit in the DAG (empty for roots and unknown ids). -/
def parentsOf (g : CommitGraph) (c : CommitId) : List CommitId :=
  match g.parentsList.find? (fun p => p.fst == c) with
  | some p => p.snd
  | none => []

/-- Fuelled ancestry traversal: all commits reachable from c along at most
n parent steps (with repetitions; callers deduplicate). -/
def reachableFuel (g : CommitGraph) : Nat → CommitId → List CommitId
  | 0, c => [c]
  | n + 1, c => c :: (parentsOf g c).flatMap (reachableFuel g n)

/-- Commits reachable from c in the DAG; the commit count bounds every
acyclic parent chain, so it serves as fuel. -/
def reachable (g : CommitGraph) (c : CommitId) : List CommitId :=
  reachableFuel g g.commits.length c

/-- log_count from src/main.rs lines 315-322 (also src/all.rs, src/git.rs,
src/git/repository.rs): the revwalk hides everything reachable from since,
pushes until, and counts the remaining distinct commits. -/
def log_count (g : CommitGraph) (since until_ : CommitId) : Nat :=
  (((reachable g until_).filter
      (fun c => !((reachable g since).contains c))).dedup).length

/-- compare_refs from src/all.rs lines 40-48: given the head tip and the
base tip, returns (commits ahead, commits behind). -/
def compare_refs (g : CommitGraph) (headTip baseTip : CommitId) : Nat × Nat :=
  (log_count g baseTip headTip, log_count g headTip baseTip)

/-- is_safe_branch from src/all.rs lines 14-38: a branch with local tip
tipB and remote-tracking tip tipR is safe when it is neither ahead of nor
behind its tracking ref. -/
def is_safe_branch (g : CommitGraph) (tipB tipR : CommitId) : Bool :=
  let counts := compare_refs g tipB tipR
  if counts.fst > 0 then false
  else if counts.snd > 0 then false
  else true

theorem log_count_self (g : CommitGraph) (t : CommitId) :
    log_count g t t = 0 := by
  unfold log_count
  have h : ((reachable g t).filter
      (fun c => !((reachable g t).contains c))) = [] := by
    apply List.filter_eq_nil_iff.mpr
    intro a ha
    simp [List.elem_eq_mem, ha]
  rw [h]
  rfl

theorem is_safe_branch_self (g : CommitGraph) (t : CommitId) :
    is_safe_branch g t t = true := by
  unfold is_safe_branch compare_refs
  simp [log_count_self]

/-- A pull request snapshot as consumed from the hosting API: the head and
base branch short names (octocrab PullRequest head.ref_field /
base.ref_field) and the title. -/
structure PullReq where
  title : String
  headRef : String
  baseRef : String
deriving DecidableEq

/-- The whole mutable world the engine acts on: the local repository
(commit DAG, refs including the remote-tracking origin/* snapshots, the
checked-out branch, the materialized work tree and whether uncommitted
modifications exist) plus the actual remote side (its refs, every tip it
ever held) and a counter of push attempts. -/
structure World where
  graph : CommitGraph
  refs : List (String × CommitId)
  headRef : String
  worktree : CommitId
  dirty : Bool
  remoteRefs : List (String × CommitId)
  remoteHistory : List CommitId
  pushCount : Nat
deriving DecidableEq

/-- resolve_reference_from_short_name: look a short ref name up in the
repository's ref table; none models a git2::Error. -/
def lookupRef : List (String × CommitId) → String → Option CommitId
  | [], _ => none
  | p :: rest, name => if p.fst == name then some p.snd else lookupRef rest name

/-- Point a ref at a new tip (reference set_target / branch reset): the
first binding of the name is replaced in place, a missing name appended. -/
def updateRef : List (String × CommitId) → String → CommitId → List (String × CommitId)
  | [], name, tip => [(name, tip)]
  | p :: rest, name, tip =>
      if p.fst == name then (name, tip) :: rest else p :: updateRef rest name tip

theorem updateRef_self (rs : List (String × CommitId)) (n : String) (t : CommitId)
    (h : lookupRef rs n = some t) : updateRef rs n t = rs := by
  induction rs with
  | nil => simp [lookupRef] at h
  | cons p rest ih =>
      by_cases hp : p.fst = n
      · obtain ⟨a, b⟩ := p
        simp only at hp
        subst hp
        simp [lookupRef] at h
        simp [updateRef, ← h]
      · have hp' : (p.fst == n) = false := by simp [hp]
        simp [lookupRef, hp'] at h
        simp [updateRef, hp', ih h]

theorem lookupRef_updateRef (rs : List (String × CommitId)) (n : String)
    (t : CommitId) (m : String) :
    lookupRef (updateRef rs n t) m = if m = n then some t else lookupRef rs m := by
  induction rs with
  | nil =>
      by_cases hm : m = n
      · simp [updateRef, lookupRef, hm]
      · have h1 : (n == m) = false := by
          simp only [beq_eq_false_iff_ne, ne_eq]
          intro h
          exact hm h.symm
        simp [updateRef, lookupRef, hm, h1]
  | cons p rest ih =>
      by_cases hp : p.fst = n
      · by_cases hm : m = n
        · simp [updateRef, lookupRef, hp, hm]
        · have h1 : (n == m) = false := by
            simp only [beq_eq_false_iff_ne, ne_eq]
            intro h
            exact hm h.symm
          have h2 : (p.fst == m) = false := by
            simp only [beq_eq_false_iff_ne, ne_eq, hp]
            intro h
            exact hm h.symm
          simp [updateRef, lookupRef, hp, hm, h1, h2]
      · have hp' : (p.fst == n) = false := by simp [hp]
        by_cases hpm : p.fst = m
        · have hmn : ¬ m = n := by
            intro h
            exact hp (hpm.trans h)
          simp [updateRef, lookupRef, hp', hpm, hmn]
        · have hpm' : (p.fst == m) = false := by simp [hpm]
          simp [updateRef, lookupRef, hp', hpm', ih]

/-- is_safe_branch from src/main.rs lines 260-283: resolves the branch and
its origin-qualified tracking ref itself (a failed resolution is an
unwrap panic, modelled as none) and then applies the ahead/behind test. -/
def is_safe_branch_refname (w : World) (refname : String) : Option Bool :=
  match lookupRef w.refs refname, lookupRef w.refs ("origin/" ++ refname) with
  | some tip, some originTip => some (is_safe_branch w.graph tip originTip)
  | _, _ => none

/-- is_safe_pr from src/all.rs lines 117-178. A failed resolution of a
local endpoint ref returns false (logged, not an error); a failed
resolution of the corresponding origin tracking ref is an unwrap panic
(none); otherwise the pr is safe when base and head are each safe. -/
def is_safe_pr (w : World) (pr : PullReq) : Option Bool :=
  match lookupRef w.refs pr.baseRef with
  | none => some false
  | some baseTip =>
    match lookupRef w.refs ("origin/" ++ pr.baseRef) with
    | none => none
    | some originBaseTip =>
      if is_safe_branch w.graph baseTip originBaseTip = false then some false
      else
        match lookupRef w.refs pr.headRef with
        | none => some false
        | some headTip =>
          match lookupRef w.refs ("origin/" ++ pr.headRef) with
          | none => none
          | some originHeadTip =>
            if is_safe_branch w.graph headTip originHeadTip = false then some false
            else some true

/-- get_primary_remote from src/git/repository.rs lines 366-386: one
configured remote is the primary; with two, origin and upstream are each
looked up by unwrap (a missing one panics, modelled as none) and upstream
is chosen; any other count panics. -/
def get_primary_remote (remotes : List String) : Option String :=
  match remotes.length with
  | 1 => remotes.head?
  | 2 =>
      match remotes.find? (fun r => r == "origin") with
      | none => none
      | some _ =>
          match remotes.find? (fun r => r == "upstream") with
          | none => none
          | some upstream => some upstream
  | _ => none

/-- merge_analysis_for_ref up-to-date outcome: the remote commit is already
contained in the local branch. -/
def merge_up_to_date (g : CommitGraph) (localTip remoteTip : CommitId) : Bool :=
  (reachable g localTip).contains remoteTip

/-- merge_analysis_for_ref fast-forward outcome: the local tip is an
ancestor of the remote commit. -/
def merge_fast_forward (g : CommitGraph) (localTip remoteTip : CommitId) : Bool :=
  (reachable g remoteTip).contains localTip

/-- GitRepo::fast_forward from src/git/repository.rs lines 100-149. The
branch and its primary-remote counterpart are resolved (unwrap panics on
failure); an up-to-date analysis returns with no change; a fast-forward
checks the remote tree out into the work tree and index exactly when the
resolved reference compares equal to HEAD, which for direct references is
a comparison of target commit ids (git_reference_cmp), then retargets the
local ref to the remote commit; any other analysis panics. The
checkout_tree call passes None options, libgit2's default SAFE checkout:
it errors (an unwrap panic) when uncommitted modifications conflict with
the target tree and preserves non-conflicting ones; whether the dirty
modifications conflict is external data, supplied as the conflict
input, consulted only when modifications exist. -/
def fast_forward (w : World) (refname : String) (conflict : Bool) : Option World :=
  match lookupRef w.refs refname with
  | none => none
  | some localTip =>
    match lookupRef w.refs ("origin/" ++ refname) with
    | none => none
    | some remoteTip =>
      if merge_up_to_date w.graph localTip remoteTip then some w
      else if merge_fast_forward w.graph localTip remoteTip then
        match lookupRef w.refs w.headRef with
        | none => none
        | some headTip =>
            if localTip == headTip then
              if w.dirty && conflict then none
              else
                some { w with worktree := remoteTip,
                              refs := updateRef w.refs refname remoteTip }
            else some { w with refs := updateRef w.refs refname remoteTip }
      else none

/-- The kind of a libgit2 rebase operation. -/
inductive RebaseOpKind
  | pick
  | reword
  | edit
  | squash
  | fixup
  | exec
deriving DecidableEq

/-- Error class of a failed rebase commit: git2 ErrorCode::Applied versus
every other error. -/
inductive CommitError
  | applied
  | other
deriving DecidableEq

/-- Result the rebase primitive reports for committing one replayed
operation. -/
inductive CommitResult
  | ok (oid : CommitId)
  | err (e : CommitError)
deriving DecidableEq

/-- One item yielded by rebase.next(): an operation of some kind together
with what committing it would report, or an error from next() itself
(for instance a merge conflict). -/
inductive RebaseItem
  | op (kind : RebaseOpKind) (res : CommitResult)
  | failed
deriving DecidableEq

/-- Observable outcome of one libgit2_rebase call: whether it finished,
whether abort was invoked, where the head branch ends up given its
original tip, and which oids were reported committed. -/
structure RebaseRun where
  success : Bool
  aborted : Bool
  finalTip : CommitId
  committed : List CommitId
deriving DecidableEq

/-- Replay loop of GitRepository::libgit2_rebase, src/git/repository.rs
lines 264-304: origTip is the head tip before the rebase (restored by
abort), curTip the tip of the in-progress replay (starting at the base),
acc the oids committed so far; none models the panic on a non-pick kind. -/
def libgit2_rebase_go (origTip : CommitId) (items : List RebaseItem)
    (curTip : CommitId) (acc : List CommitId) : Option RebaseRun :=
  match items with
  | [] => some { success := true, aborted := false, finalTip := curTip, committed := acc }
  | RebaseItem.failed :: _ =>
      some { success := false, aborted := true, finalTip := origTip, committed := acc }
  | RebaseItem.op k res :: rest =>
    match k with
    | RebaseOpKind.pick =>
      match res with
      | CommitResult.ok oid => libgit2_rebase_go origTip rest oid (acc ++ [oid])
      | CommitResult.err CommitError.applied => libgit2_rebase_go origTip rest curTip acc
      | CommitResult.err CommitError.other =>
          some { success := false, aborted := true, finalTip := origTip, committed := acc }
    | _ => none

/-- GitRepository::libgit2_rebase from src/git/repository.rs lines
231-311, as a function of the operation stream the repository yields. -/
def libgit2_rebase (origTip baseTip : CommitId) (items : List RebaseItem) : Option RebaseRun :=
  libgit2_rebase_go origTip items baseTip []

/-- An item the replay loop passes through without stopping: a pick that
either commits or reports the already-applied error. -/
def pick_ok_or_applied : RebaseItem → Bool
  | RebaseItem.op RebaseOpKind.pick (CommitResult.ok _) => true
  | RebaseItem.op RebaseOpKind.pick (CommitResult.err CommitError.applied) => true
  | _ => false

/-- The remote's verdict on one push attempt, exactly the Ok/Err split the
source matches on. -/
inductive PushResult
  | accepted
  | rejected
deriving DecidableEq

/-- GitRemote::push from src/git/remote.rs lines 50-92. The head branch
and its remote-tracking ref are resolved (unwrap panic on failure, none);
equal tips mean nothing to push and false is returned; otherwise the push
runs: on Ok the remote ref and its local tracking snapshot move to the
local tip and true is returned; on Err the currently checked-out branch is
hard-reset to the remote-tracking tip and false is returned. -/
def remote_push (pr : PullReq) (outcome : PushResult) (w : World) : Option (World × Bool) :=
  match lookupRef w.refs pr.headRef with
  | none => none
  | some headTip =>
    match lookupRef w.refs ("origin/" ++ pr.headRef) with
    | none => none
    | some remoteTrackTip =>
      if headTip == remoteTrackTip then some (w, false)
      else
        match outcome with
        | PushResult.accepted =>
            some ({ w with
                      remoteRefs := updateRef w.remoteRefs pr.headRef headTip,
                      remoteHistory := headTip :: w.remoteHistory,
                      refs := updateRef w.refs ("origin/" ++ pr.headRef) headTip,
                      pushCount := w.pushCount + 1 }, true)
        | PushResult.rejected =>
            some ({ w with
                      refs := updateRef w.refs w.headRef remoteTrackTip,
                      worktree := remoteTrackTip,
                      dirty := false,
                      pushCount := w.pushCount + 1 }, false)

/-- with_revert_to_current_branch from src/main.rs lines 218-234: the name
of the current HEAD is recorded, the action runs, and only on its normal
return is HEAD set back and force-checked-out (a panic inside the action,
the error case, propagates with no restoration; the force checkout
discards uncommitted modifications). -/
def with_revert_to_current_branch (f : World → Except World (World × Bool))
    (w : World) : Except World (World × Bool) :=
  let currentHeadName := w.headRef
  match f w with
  | Except.error w' => Except.error w'
  | Except.ok (w', result) =>
      match lookupRef w'.refs currentHeadName with
      | none => Except.error w'
      | some tip =>
          Except.ok ({ w' with headRef := currentHeadName, worktree := tip,
                               dirty := false }, result)

/-- Outcome of the inline replay loop of src/main.rs lines 119-173, as the
step consumes it: the loop finished and the head branch ref was moved to
newTip, or some operation failed and the rebase was aborted with the head
branch untouched, or an unsupported operation kind caused a panic. -/
inductive RebaseOutcome
  | success (newTip : CommitId)
  | aborted
  | fatal
deriving DecidableEq

/-- Body of the closure of fn rebase, src/main.rs lines 104-215: check the
head branch out (set_head plus force checkout), resolve the base ref
(unwrap panic on failure), run the replay loop, and on a finished rebase
either skip the push when the branch compares safe against its tracking
ref or push with force and on rejection hard-reset to the tracking tip.
The replay loop outcome is supplied by prim and the remote's verdict for
the n-th push attempt of the run by env n. -/
def rebase_pr_inner (prim : PullReq → World → RebaseOutcome)
    (env : Nat → PushResult) (pr : PullReq) (w0 : World) :
    Except World (World × Bool) :=
  match lookupRef w0.refs pr.headRef with
  | none => Except.error w0
  | some headTip =>
    let w1 : World := { w0 with headRef := pr.headRef, worktree := headTip, dirty := false }
    match lookupRef w1.refs pr.baseRef with
    | none => Except.error w1
    | some _baseTip =>
      match prim pr w1 with
      | RebaseOutcome.fatal => Except.error w1
      | RebaseOutcome.aborted => Except.ok (w1, false)
      | RebaseOutcome.success newTip =>
        let w2 : World := { w1 with refs := updateRef w1.refs pr.headRef newTip,
                                    worktree := newTip }
        match is_safe_branch_refname w2 pr.headRef with
        | none => Except.error w2
        | some true => Except.ok (w2, false)
        | some false =>
          match env w2.pushCount with
          | PushResult.accepted =>
              Except.ok ({ w2 with
                  remoteRefs := updateRef w2.remoteRefs pr.headRef newTip,
                  remoteHistory := newTip :: w2.remoteHistory,
                  refs := updateRef w2.refs ("origin/" ++ pr.headRef) newTip,
                  pushCount := w2.pushCount + 1 }, true)
          | PushResult.rejected =>
              match lookupRef w2.refs ("origin/" ++ pr.headRef) with
              | none => Except.error w2
              | some originTip =>
                  Except.ok ({ w2 with
                      refs := updateRef w2.refs w2.headRef originTip,
                      worktree := originTip, dirty := false,
                      pushCount := w2.pushCount + 1 }, false)

/-- fn rebase from src/main.rs lines 103-216: the inner closure wrapped in
the branch-state guard. -/
def rebase_pr (prim : PullReq → World → RebaseOutcome) (env : Nat → PushResult)
    (pr : PullReq) (w : World) : Except World (World × Bool) :=
  with_revert_to_current_branch (rebase_pr_inner prim env pr) w

/-- One pass of the convergence loop, src/main.rs lines 88-93: every safe
pr is rebased in order and the per-pr results are or-ed into the
changes_propagated flag. -/
def run_pass (step : PullReq → World → Except World (World × Bool))
    (prs : List PullReq) (w : World) : Except World (World × Bool) :=
  match prs with
  | [] => Except.ok (w, false)
  | pr :: rest =>
    match step pr w with
    | Except.error w' => Except.error w'
    | Except.ok (w', b) =>
      match run_pass step rest w' with
      | Except.error w'' => Except.error w''
      | Except.ok (w'', b') => Except.ok (w'', b' || b)

/-- The convergence loop of src/main.rs lines 87-98, with explicit fuel:
run a pass; if nothing propagated, stop, otherwise loop. The result
carries the number of passes executed; none means the fuel ran out before
the loop stopped on its own. -/
def convergence_loop (step : PullReq → World → Except World (World × Bool))
    (prs : List PullReq) : Nat → World → Option (Except World (World × Nat))
  | 0, _ => none
  | fuel + 1, w =>
    match run_pass step prs w with
    | Except.error w' => some (Except.error w')
    | Except.ok (w', changed) =>
      if changed then
        match convergence_loop step prs fuel w' with
        | none => none
        | some (Except.error w'') => some (Except.error w'')
        | some (Except.ok (w'', n)) => some (Except.ok (w'', n + 1))
      else some (Except.ok (w', 1))

/-- State before pass i (0-based) of the loop, stripping passes from the
front; none when an earlier pass panicked. -/
def pass_state (step : PullReq → World → Except World (World × Bool))
    (prs : List PullReq) : Nat → World → Option World
  | 0, w => some w
  | i + 1, w =>
    match run_pass step prs w with
    | Except.error _ => none
    | Except.ok (w', _) => pass_state step prs i w'

/-- The changes_propagated flag of pass i (0-based). -/
def pass_changed (step : PullReq → World → Except World (World × Bool))
    (prs : List PullReq) : Nat → World → Option Bool
  | 0, w =>
    match run_pass step prs w with
    | Except.error _ => none
    | Except.ok (_, b) => some b
  | i + 1, w =>
    match run_pass step prs w with
    | Except.error _ => none
    | Except.ok (w', _) => pass_changed step prs i w'

/-- C3: for every branch B with remote tracking ref R, is_safe_branch
returns true if and only if the count of commits reachable from B's tip
but not from R's tip is zero and the count of commits reachable from R's
tip but not from B's tip is zero; any divergence in either direction
classifies the branch unsafe. -/
theorem c3_safe_iff_zero_ahead_behind (g : CommitGraph) (b r : CommitId) :
    is_safe_branch g b r = true ↔ log_count g r b = 0 ∧ log_count g b r = 0 := by
  unfold is_safe_branch compare_refs
  by_cases h1 : 0 < log_count g r b
  · simp [h1]
    omega
  · by_cases h2 : 0 < log_count g b r
    · simp [h1, h2]
      omega
    · simp [h1, h2]
      omega

/-- Concrete commit graph with a single root commit, for witnesses. -/
def g3 : CommitGraph := { commits := [1], parentsList := [(1, [])] }

/-- Witness for C3 at a concrete graph and equal tips. -/
theorem c3_witness : is_safe_branch g3 1 1 = true :=
  (c3_safe_iff_zero_ahead_behind g3 1 1).mpr ⟨log_count_self g3 1, log_count_self g3 1⟩

/-- C9: one configured remote is the primary; with exactly two, origin and
upstream must both exist and upstream is the primary; any other number of
remotes is fatal (none models the startup panic), as is a missing origin
or upstream among exactly two. -/
theorem c9_primary_remote :
    (∀ r : String, get_primary_remote [r] = some r)
    ∧ (∀ remotes : List String, remotes.length = 2 → "origin" ∈ remotes →
        "upstream" ∈ remotes → get_primary_remote remotes = some "upstream")
    ∧ (∀ remotes : List String, remotes.length = 2 →
        ¬("origin" ∈ remotes ∧ "upstream" ∈ remotes) → get_primary_remote remotes = none)
    ∧ (∀ remotes : List String, remotes.length ≠ 1 → remotes.length ≠ 2 →
        get_primary_remote remotes = none) := by
  refine ⟨?_, ?_, ?_, ?_⟩
  · intro r
    rfl
  · intro remotes hlen ho hu
    have hfo : remotes.find? (fun r => r == "origin") = some "origin" := by
      have : ∃ x, remotes.find? (fun r => r == "origin") = some x := by
        rw [← Option.isSome_iff_exists]
        rw [List.find?_isSome]
        exact ⟨"origin", ho, by simp⟩
      obtain ⟨x, hx⟩ := this
      have := List.find?_some hx
      simp at this
      rw [hx, this]
    have hfu : remotes.find? (fun r => r == "upstream") = some "upstream" := by
      have : ∃ x, remotes.find? (fun r => r == "upstream") = some x := by
        rw [← Option.isSome_iff_exists]
        rw [List.find?_isSome]
        exact ⟨"upstream", hu, by simp⟩
      obtain ⟨x, hx⟩ := this
      have := List.find?_some hx
      simp at this
      rw [hx, this]
    unfold get_primary_remote
    rw [hlen, hfo, hfu]
  · intro remotes hlen hno
    unfold get_primary_remote
    rw [hlen]
    by_cases ho : "origin" ∈ remotes
    · have hu : "upstream" ∉ remotes := by
        intro hu
        exact hno ⟨ho, hu⟩
      have hfu : remotes.find? (fun r => r == "upstream") = none := by
        rw [List.find?_eq_none]
        intro x hx
        simp only [beq_iff_eq]
        intro h
        rw [h] at hx
        exact hu hx
      rw [hfu]
      cases hfo : remotes.find? (fun r => r == "origin") <;> rfl
    · have hfo : remotes.find? (fun r => r == "origin") = none := by
        rw [List.find?_eq_none]
        intro x hx
        simp only [beq_iff_eq]
        intro h
        rw [h] at hx
        exact ho hx
      rw [hfo]
  · intro remotes h1 h2
    unfold get_primary_remote
    rcases hn : remotes.length with _ | m
    · rfl
    · rcases hm : m with _ | k
      · exact absurd (by omega) h1
      · rcases hk : k with _ | j
        · exact absurd (by omega) h2
        · rfl

/-- Witness for C9 at the two-remote topology. -/
theorem c9_witness : get_primary_remote ["origin", "upstream"] = some "upstream" :=
  c9_primary_remote.2.1 ["origin", "upstream"] rfl (by simp) (by simp)

theorem libgit2_rebase_go_failure (origTip : CommitId) (items : List RebaseItem) :
    ∀ (curTip : CommitId) (acc : List CommitId) (run : RebaseRun),
      libgit2_rebase_go origTip items curTip acc = some run →
      run.success = false → run.aborted = true ∧ run.finalTip = origTip := by
  induction items with
  | nil =>
      intro curTip acc run h hf
      unfold libgit2_rebase_go at h
      injection h with h
      rw [← h] at hf
      simp at hf
  | cons it rest ih =>
      intro curTip acc run h hf
      match it with
      | RebaseItem.failed =>
          unfold libgit2_rebase_go at h
          injection h with h
          rw [← h]
          exact ⟨rfl, rfl⟩
      | RebaseItem.op RebaseOpKind.pick (CommitResult.ok oid) =>
          unfold libgit2_rebase_go at h
          exact ih oid (acc ++ [oid]) run h hf
      | RebaseItem.op RebaseOpKind.pick (CommitResult.err CommitError.applied) =>
          unfold libgit2_rebase_go at h
          exact ih curTip acc run h hf
      | RebaseItem.op RebaseOpKind.pick (CommitResult.err CommitError.other) =>
          unfold libgit2_rebase_go at h
          injection h with h
          rw [← h]
          exact ⟨rfl, rfl⟩
      | RebaseItem.op RebaseOpKind.reword res =>
          unfold libgit2_rebase_go at h
          exact absurd h (by simp)
      | RebaseItem.op RebaseOpKind.edit res =>
          unfold libgit2_rebase_go at h
          exact absurd h (by simp)
      | RebaseItem.op RebaseOpKind.squash res =>
          unfold libgit2_rebase_go at h
          exact absurd h (by simp)
      | RebaseItem.op RebaseOpKind.fixup res =>
          unfold libgit2_rebase_go at h
          exact absurd h (by simp)
      | RebaseItem.op RebaseOpKind.exec res =>
          unfold libgit2_rebase_go at h
          exact absurd h (by simp)

theorem libgit2_rebase_go_tolerant (items : List RebaseItem) :
    (∀ it ∈ items, pick_ok_or_applied it = true) →
    ∀ (origTip curTip : CommitId) (acc : List CommitId),
      ∃ run, libgit2_rebase_go origTip items curTip acc = some run ∧
        run.success = true ∧ run.aborted = false := by
  induction items with
  | nil =>
      intro _ origTip curTip acc
      exact ⟨_, rfl, rfl, rfl⟩
  | cons it rest ih =>
      intro hall origTip curTip acc
      have hit : pick_ok_or_applied it = true := hall it (by simp)
      have hrest : ∀ it ∈ rest, pick_ok_or_applied it = true := by
        intro x hx
        exact hall x (by simp [hx])
      match it, hit with
      | RebaseItem.op RebaseOpKind.pick (CommitResult.ok oid), _ =>
          obtain ⟨run, h, hs, ha⟩ := ih hrest origTip oid (acc ++ [oid])
          exact ⟨run, by unfold libgit2_rebase_go; exact h, hs, ha⟩
      | RebaseItem.op RebaseOpKind.pick (CommitResult.err CommitError.applied), _ =>
          obtain ⟨run, h, hs, ha⟩ := ih hrest origTip curTip acc
          exact ⟨run, by unfold libgit2_rebase_go; exact h, hs, ha⟩

/-- C7: whenever the replay loop returns failure, the rebase abort path was
invoked and the head branch ends at its original tip; and a run whose
operations are all picks that commit or report the already-applied error
finishes without ever aborting. -/
theorem c7_failure_aborts_and_applied_tolerated :
    (∀ (origTip baseTip : CommitId) (items : List RebaseItem) (run : RebaseRun),
        libgit2_rebase origTip baseTip items = some run → run.success = false →
        run.aborted = true ∧ run.finalTip = origTip)
    ∧ (∀ (origTip baseTip : CommitId) (items : List RebaseItem),
        (∀ it ∈ items, pick_ok_or_applied it = true) →
        ∃ run, libgit2_rebase origTip baseTip items = some run ∧
          run.success = true ∧ run.aborted = false) := by
  constructor
  · intro origTip baseTip items run h hf
    exact libgit2_rebase_go_failure origTip items baseTip [] run h hf
  · intro origTip baseTip items hall
    exact libgit2_rebase_go_tolerant items hall origTip baseTip []

/-- The concrete aborted run used by the C7 witness: a single pick whose
commit fails with an error other than already-applied. -/
def run7 : RebaseRun := { success := false, aborted := true, finalTip := 9, committed := [] }

/-- Witness for C7: the failing single-pick replay aborts and leaves the
head at its original tip 9. -/
theorem c7_witness : run7.aborted = true ∧ run7.finalTip = 9 :=
  c7_failure_aborts_and_applied_tolerated.1 9 5
    [RebaseItem.op RebaseOpKind.pick (CommitResult.err CommitError.other)] run7 rfl rfl

theorem libgit2_rebase_go_nonpick (origTip : CommitId) (pre : List RebaseItem) :
    ∀ (k : RebaseOpKind) (res : CommitResult) (post : List RebaseItem)
      (curTip : CommitId) (acc : List CommitId),
      (∀ it ∈ pre, pick_ok_or_applied it = true) → k ≠ RebaseOpKind.pick →
      libgit2_rebase_go origTip (pre ++ RebaseItem.op k res :: post) curTip acc = none := by
  induction pre with
  | nil =>
      intro k res post curTip acc _ hk
      match k, hk with
      | RebaseOpKind.reword, _ => rfl
      | RebaseOpKind.edit, _ => rfl
      | RebaseOpKind.squash, _ => rfl
      | RebaseOpKind.fixup, _ => rfl
      | RebaseOpKind.exec, _ => rfl
  | cons it pre' ih =>
      intro k res post curTip acc hall hk
      have hit : pick_ok_or_applied it = true := hall it (by simp)
      have hpre' : ∀ x ∈ pre', pick_ok_or_applied x = true := by
        intro x hx
        exact hall x (by simp [hx])
      match it, hit with
      | RebaseItem.op RebaseOpKind.pick (CommitResult.ok oid), _ =>
          unfold libgit2_rebase_go
          exact ih k res post oid (acc ++ [oid]) hpre' hk
      | RebaseItem.op RebaseOpKind.pick (CommitResult.err CommitError.applied), _ =>
          unfold libgit2_rebase_go
          exact ih k res post curTip acc hpre' hk

theorem libgit2_rebase_go_committed (origTip : CommitId) (items : List RebaseItem) :
    ∀ (curTip : CommitId) (acc : List CommitId) (run : RebaseRun),
      libgit2_rebase_go origTip items curTip acc = some run →
      ∀ oid ∈ run.committed,
        oid ∈ acc ∨ RebaseItem.op RebaseOpKind.pick (CommitResult.ok oid) ∈ items := by
  induction items with
  | nil =>
      intro curTip acc run h oid hoid
      unfold libgit2_rebase_go at h
      injection h with h
      rw [← h] at hoid
      exact Or.inl hoid
  | cons it rest ih =>
      intro curTip acc run h oid hoid
      match it with
      | RebaseItem.failed =>
          unfold libgit2_rebase_go at h
          injection h with h
          rw [← h] at hoid
          exact Or.inl hoid
      | RebaseItem.op RebaseOpKind.pick (CommitResult.ok o) =>
          unfold libgit2_rebase_go at h
          rcases ih o (acc ++ [o]) run h oid hoid with hin | hin
          · rcases List.mem_append.mp hin with hin' | hin'
            · exact Or.inl hin'
            · simp at hin'
              rw [hin']
              exact Or.inr (by simp)
          · exact Or.inr (by simp [hin])
      | RebaseItem.op RebaseOpKind.pick (CommitResult.err CommitError.applied) =>
          unfold libgit2_rebase_go at h
          rcases ih curTip acc run h oid hoid with hin | hin
          · exact Or.inl hin
          · exact Or.inr (by simp [hin])
      | RebaseItem.op RebaseOpKind.pick (CommitResult.err CommitError.other) =>
          unfold libgit2_rebase_go at h
          injection h with h
          rw [← h] at hoid
          exact Or.inl hoid
      | RebaseItem.op RebaseOpKind.reword res =>
          unfold libgit2_rebase_go at h
          exact absurd h (by simp)
      | RebaseItem.op RebaseOpKind.edit res =>
          unfold libgit2_rebase_go at h
          exact absurd h (by simp)
      | RebaseItem.op RebaseOpKind.squash res =>
          unfold libgit2_rebase_go at h
          exact absurd h (by simp)
      | RebaseItem.op RebaseOpKind.fixup res =>
          unfold libgit2_rebase_go at h
          exact absurd h (by simp)
      | RebaseItem.op RebaseOpKind.exec res =>
          unfold libgit2_rebase_go at h
          exact absurd h (by simp)

/-- C8: a replay plan that reaches an operation of kind reword, edit,
squash, fixup or exec panics (none) instead of attempting it, and every
oid a completed or aborted run reports committed stems from a pick
operation. -/
theorem c8_nonpick_fatal_and_only_picks_committed :
    (∀ (origTip baseTip : CommitId) (pre : List RebaseItem) (k : RebaseOpKind)
        (res : CommitResult) (post : List RebaseItem),
        (∀ it ∈ pre, pick_ok_or_applied it = true) → k ≠ RebaseOpKind.pick →
        libgit2_rebase origTip baseTip (pre ++ RebaseItem.op k res :: post) = none)
    ∧ (∀ (origTip baseTip : CommitId) (items : List RebaseItem) (run : RebaseRun),
        libgit2_rebase origTip baseTip items = some run →
        ∀ oid ∈ run.committed,
          RebaseItem.op RebaseOpKind.pick (CommitResult.ok oid) ∈ items) := by
  constructor
  · intro origTip baseTip pre k res post hall hk
    exact libgit2_rebase_go_nonpick origTip pre k res post baseTip [] hall hk
  · intro origTip baseTip items run h oid hoid
    rcases libgit2_rebase_go_committed origTip items baseTip [] run h oid hoid with hin | hin
    · exact absurd hin (by simp)
    · exact hin

/-- Witness for C8: a squash operation after one successful pick makes the
whole replay fatal. -/
theorem c8_witness :
    libgit2_rebase 9 5
      [RebaseItem.op RebaseOpKind.pick (CommitResult.ok 3),
       RebaseItem.op RebaseOpKind.squash (CommitResult.ok 0)] = none :=
  c8_nonpick_fatal_and_only_picks_committed.1 9 5
    [RebaseItem.op RebaseOpKind.pick (CommitResult.ok 3)] RebaseOpKind.squash
    (CommitResult.ok 0) [] (by intro it hit; simp at hit; rw [hit]; rfl) (by decide)

/-- A pull request from branch h into branch b, for concrete instances. -/
def pr4 : PullReq := { title := "t", headRef := "h", baseRef := "b" }

/-- Repository in which the base branch b resolves but its remote-tracking
ref origin/b does not. -/
def w4 : World :=
  { graph := g3, refs := [("b", 1)], headRef := "b", worktree := 1, dirty := false,
    remoteRefs := [], remoteHistory := [], pushCount := 0 }

/-- Counterexample to C4 as stated: when the remote-tracking ref of an
endpoint fails to resolve, is_safe_pr does not classify the change request
unsafe; it panics (an unwrap on the Err), modelled as none. -/
theorem c4_counterexample :
    lookupRef w4.refs ("origin/" ++ pr4.baseRef) = none
    ∧ is_safe_pr w4 pr4 = none
    ∧ is_safe_pr w4 pr4 ≠ some false := by
  refine ⟨rfl, rfl, ?_⟩
  intro h
  simp [is_safe_pr, w4, pr4, lookupRef] at h

/-- C4 amended: with all four refs resolving, a change request is safe
exactly when base and head are each individually safe; a failed resolution
of an endpoint's local ref classifies it unsafe (false, a log notice); but
a failed resolution of a remote-tracking ref panics instead of
classifying. -/
theorem c4_safe_pr_amended :
    (∀ (w : World) (pr : PullReq) (bt obt ht oht : CommitId),
        lookupRef w.refs pr.baseRef = some bt →
        lookupRef w.refs ("origin/" ++ pr.baseRef) = some obt →
        lookupRef w.refs pr.headRef = some ht →
        lookupRef w.refs ("origin/" ++ pr.headRef) = some oht →
        is_safe_pr w pr =
          some (is_safe_branch w.graph bt obt && is_safe_branch w.graph ht oht))
    ∧ (∀ (w : World) (pr : PullReq),
        lookupRef w.refs pr.baseRef = none → is_safe_pr w pr = some false)
    ∧ (∀ (w : World) (pr : PullReq) (bt obt : CommitId),
        lookupRef w.refs pr.baseRef = some bt →
        lookupRef w.refs ("origin/" ++ pr.baseRef) = some obt →
        is_safe_branch w.graph bt obt = true →
        lookupRef w.refs pr.headRef = none → is_safe_pr w pr = some false) := by
  refine ⟨?_, ?_, ?_⟩
  · intro w pr bt obt ht oht h1 h2 h3 h4
    unfold is_safe_pr
    rw [h1, h2]
    cases hb : is_safe_branch w.graph bt obt with
    | false => simp [hb]
    | true =>
        simp only [hb]
        rw [h3, h4]
        cases hh : is_safe_branch w.graph ht oht with
        | false => simp [hh]
        | true => simp [hh]
  · intro w pr h
    unfold is_safe_pr
    rw [h]
  · intro w pr bt obt h1 h2 hsafe h3
    unfold is_safe_pr
    simp only [h1, h2, hsafe, h3]
    simp

/-- Repository in which all four endpoint refs of pr4 resolve and match
their tracking refs. -/
def w4b : World :=
  { graph := g3,
    refs := [("b", 1), ("origin/b", 1), ("h", 2), ("origin/h", 2)],
    headRef := "b", worktree := 1, dirty := false,
    remoteRefs := [], remoteHistory := [], pushCount := 0 }

/-- Witness for the amended C4 at a fully resolving repository. -/
theorem c4_witness :
    is_safe_pr w4b pr4 =
      some (is_safe_branch w4b.graph 1 1 && is_safe_branch w4b.graph 2 2) :=
  c4_safe_pr_amended.1 w4b pr4 1 1 2 2 rfl rfl rfl rfl

/-- C1: a publish attempt the remote rejects reports false, leaves every
remote-side ref and the remote's tip history unchanged (no forced
overwrite), and hard-resets the checked-out head branch to the
remote-tracking tip, so the branch ends at a tip the remote has
contained. -/
theorem c1_rejected_push_resets (pr : PullReq) (w : World)
    (headTip trackTip : CommitId) (w' : World) (b : Bool)
    (hcur : w.headRef = pr.headRef)
    (hh : lookupRef w.refs pr.headRef = some headTip)
    (ht : lookupRef w.refs ("origin/" ++ pr.headRef) = some trackTip)
    (hp : remote_push pr PushResult.rejected w = some (w', b)) :
    b = false ∧ w'.remoteRefs = w.remoteRefs ∧ w'.remoteHistory = w.remoteHistory
    ∧ lookupRef w'.refs pr.headRef = some trackTip
    ∧ (trackTip ∈ w.remoteHistory → trackTip ∈ w'.remoteHistory) := by
  by_cases he : headTip = trackTip
  · have hres : remote_push pr PushResult.rejected w = some (w, false) := by
      unfold remote_push
      rw [hh, ht]
      simp [he]
    rw [hres] at hp
    injection hp with hp
    obtain ⟨hw, hb⟩ := Prod.mk.inj hp
    subst hw
    subst hb
    refine ⟨rfl, rfl, rfl, ?_, fun h => h⟩
    rw [hh, he]
  · have he' : (headTip == trackTip) = false := beq_eq_false_iff_ne.mpr he
    have hres : remote_push pr PushResult.rejected w =
        some ({ w with refs := updateRef w.refs w.headRef trackTip,
                       worktree := trackTip, dirty := false,
                       pushCount := w.pushCount + 1 }, false) := by
      unfold remote_push
      rw [hh, ht]
      simp [he']
    rw [hres] at hp
    injection hp with hp
    obtain ⟨hw, hb⟩ := Prod.mk.inj hp
    subst hw
    subst hb
    refine ⟨rfl, rfl, rfl, ?_, fun h => h⟩
    rw [lookupRef_updateRef, hcur]
    simp

/-- Pull request whose head branch a is ahead of its tracking snapshot. -/
def c1pr : PullReq := { title := "t", headRef := "a", baseRef := "m" }

/-- World just before the rejected publish of branch a: the local tip 5
disagrees with the tracking tip 7, which the remote has held. -/
def c1w : World :=
  { graph := g3, refs := [("a", 5), ("origin/a", 7)], headRef := "a", worktree := 5,
    dirty := false, remoteRefs := [("a", 7)], remoteHistory := [7], pushCount := 0 }

/-- World the rejected publish of branch a leaves behind: branch a reset
to the tracking tip 7, remote side untouched. -/
def c1w' : World :=
  { graph := g3, refs := [("a", 7), ("origin/a", 7)], headRef := "a", worktree := 7,
    dirty := false, remoteRefs := [("a", 7)], remoteHistory := [7], pushCount := 1 }

/-- Witness for C1 at the concrete rejected publish. -/
theorem c1_witness :
    lookupRef c1w'.refs c1pr.headRef = some 7 ∧ c1w'.remoteRefs = c1w.remoteRefs :=
  ⟨(c1_rejected_push_resets c1pr c1w 5 7 c1w' false rfl rfl rfl rfl).2.2.2.1,
   (c1_rejected_push_resets c1pr c1w 5 7 c1w' false rfl rfl rfl rfl).2.1⟩

/-- Two-commit graph: commit 2 extends root commit 1. -/
def g10 : CommitGraph := { commits := [1, 2], parentsList := [(2, [1]), (1, [])] }

/-- World for the C10 counterexample: a clean work tree, branch master
behind its remote counterpart, and the checked-out branch other, which
happens to point at the same commit as master. -/
def c10w : World :=
  { graph := g10, refs := [("master", 1), ("origin/master", 2), ("other", 1)],
    headRef := "other", worktree := 1, dirty := false,
    remoteRefs := [], remoteHistory := [], pushCount := 0 }

/-- Result of fast-forwarding master in c10w: master advanced to 2, and
the work tree and index were also rewritten although master is not the
checked-out branch. -/
def c10w' : World :=
  { graph := g10, refs := [("master", 2), ("origin/master", 2), ("other", 1)],
    headRef := "other", worktree := 2, dirty := false,
    remoteRefs := [], remoteHistory := [], pushCount := 0 }

/-- Counterexample to C10 as stated: fast_forward updates the work tree
and index whenever the branch's tip equals HEAD's tip (git_reference_cmp
compares targets), so a different checked-out branch at the same commit
also triggers the checkout, contradicting only-when-checked-out. -/
theorem c10_counterexample :
    fast_forward c10w "master" false = some c10w'
    ∧ c10w.headRef ≠ "master"
    ∧ c10w'.worktree ≠ c10w.worktree := by
  refine ⟨?_, by decide, by decide⟩
  rfl

/-- C10 amended: an up-to-date analysis leaves the repository unchanged; a
fast-forward analysis advances the local ref to the remote tip and, when
the branch tip equals the checked-out HEAD's tip (in particular whenever
the branch is checked out), additionally rewrites the work tree and index
by a SAFE checkout that panics when uncommitted modifications conflict
with the target tree and preserves them otherwise; every other analysis
panics. -/
theorem c10_fast_forward_amended (w : World) (refname : String) (conflict : Bool)
    (localTip remoteTip headTip : CommitId)
    (h1 : lookupRef w.refs refname = some localTip)
    (h2 : lookupRef w.refs ("origin/" ++ refname) = some remoteTip)
    (h3 : lookupRef w.refs w.headRef = some headTip) :
    (merge_up_to_date w.graph localTip remoteTip = true →
        fast_forward w refname conflict = some w)
    ∧ (merge_up_to_date w.graph localTip remoteTip = false →
        merge_fast_forward w.graph localTip remoteTip = true →
        (localTip = headTip →
            ((w.dirty && conflict) = true →
                fast_forward w refname conflict = none)
            ∧ ((w.dirty && conflict) = false →
                fast_forward w refname conflict =
                  some { w with worktree := remoteTip,
                                refs := updateRef w.refs refname remoteTip }))
        ∧ (localTip ≠ headTip →
            fast_forward w refname conflict =
              some { w with refs := updateRef w.refs refname remoteTip }))
    ∧ (merge_up_to_date w.graph localTip remoteTip = false →
        merge_fast_forward w.graph localTip remoteTip = false →
        fast_forward w refname conflict = none) := by
  refine ⟨?_, ?_, ?_⟩
  · intro hu
    unfold fast_forward
    rw [h1, h2]
    simp [hu]
  · intro hu hf
    constructor
    · intro heq
      constructor
      · intro hc
        unfold fast_forward
        rw [h1, h2]
        simp only [hu, hf, h3]
        simp [heq, hc]
      · intro hc
        unfold fast_forward
        rw [h1, h2]
        simp only [hu, hf, h3]
        simp [heq, hc]
    · intro hne
      have hne' : (localTip == headTip) = false := beq_eq_false_iff_ne.mpr hne
      unfold fast_forward
      rw [h1, h2]
      simp only [hu, hf, h3]
      simp [hne']
  · intro hu hf
    unfold fast_forward
    rw [h1, h2]
    simp [hu, hf]

/-- World in which branch m is already up to date with origin/m. -/
def c10wu : World :=
  { graph := g10, refs := [("m", 1), ("origin/m", 1)], headRef := "m", worktree := 1,
    dirty := false, remoteRefs := [], remoteHistory := [], pushCount := 0 }

/-- Witness for the amended C10: an up-to-date branch is left unchanged. -/
theorem c10_witness : fast_forward c10wu "m" false = some c10wu :=
  (c10_fast_forward_amended c10wu "m" false 1 1 1 rfl rfl rfl).1 rfl

/-- Action for the C2 counterexample: fail (panic) after checking out the
branch feat. -/
def c2_bad_action : World → Except World (World × Bool) :=
  fun w => Except.error { w with headRef := "feat" }

/-- Action for the C2 counterexample that completes normally without
touching anything. -/
def c2_ok_action : World → Except World (World × Bool) :=
  fun w => Except.ok (w, true)

/-- Starting world for C2: master checked out, uncommitted modifications
present. -/
def c2w : World :=
  { graph := g3, refs := [("master", 1), ("feat", 1)], headRef := "master",
    worktree := 1, dirty := true, remoteRefs := [], remoteHistory := [], pushCount := 0 }

/-- Counterexample to C2 as stated: when the action fails partway through,
the guard performs no restoration, so the run ends on the branch the
action left checked out; and even on normal completion the guard creates
no stash - the force checkout discards pre-existing uncommitted
modifications instead of preserving them. -/
theorem c2_counterexample :
    (with_revert_to_current_branch c2_bad_action c2w =
        Except.error { c2w with headRef := "feat" }
      ∧ ({ c2w with headRef := "feat" } : World).headRef ≠ c2w.headRef)
    ∧ (with_revert_to_current_branch c2_ok_action c2w =
        Except.ok ({ c2w with dirty := false }, true)
      ∧ c2w.dirty = true
      ∧ ({ c2w with dirty := false } : World).dirty ≠ c2w.dirty) := by
  exact ⟨⟨rfl, by decide⟩, ⟨rfl, rfl, by decide⟩⟩

/-- C2 amended: for every action that completes normally, the guard
restores the originally recorded branch by a force checkout; no stash is
created, so the force checkout leaves the work tree clean, discarding
rather than preserving uncommitted modifications, and a failing action
skips restoration entirely. -/
theorem c2_guard_restores_on_success (f : World → Except World (World × Bool))
    (w w' : World) (b : Bool)
    (h : with_revert_to_current_branch f w = Except.ok (w', b)) :
    w'.headRef = w.headRef ∧ w'.dirty = false := by
  unfold with_revert_to_current_branch at h
  cases hf : f w with
  | error e =>
      rw [hf] at h
      exact absurd h (by simp)
  | ok p =>
      obtain ⟨w1, b1⟩ := p
      simp only [hf] at h
      cases hl : lookupRef w1.refs w.headRef with
      | none =>
          simp only [hl] at h
          exact absurd h (by simp)
      | some tip =>
          simp only [hl] at h
          injection h with h
          obtain ⟨hw, hb⟩ := Prod.mk.inj h
          rw [← hw]
          exact ⟨rfl, rfl⟩

/-- Witness for the amended C2 at a normally completing action. -/
theorem c2_witness :
    ({ c2w with dirty := false } : World).headRef = c2w.headRef
    ∧ ({ c2w with dirty := false } : World).dirty = false :=
  c2_guard_restores_on_success c2_ok_action c2w { c2w with dirty := false } true rfl

/-- C5: whenever the convergence loop stops on its own after n passes,
the last pass propagated no change, every earlier pass propagated at
least one change, and the final world is the one reached after those n
passes; in particular at least one full pass always runs. -/
theorem c5_loop_stops_at_first_quiet_pass
    (step : PullReq → World → Except World (World × Bool)) (prs : List PullReq) :
    ∀ (fuel : Nat) (w w' : World) (n : Nat),
      convergence_loop step prs fuel w = some (Except.ok (w', n)) →
      1 ≤ n ∧ pass_changed step prs (n - 1) w = some false
      ∧ (∀ i, i < n - 1 → pass_changed step prs i w = some true)
      ∧ pass_state step prs n w = some w' := by
  intro fuel
  induction fuel with
  | zero =>
      intro w w' n h
      exact absurd h (by simp [convergence_loop])
  | succ fuel ih =>
      intro w w' n h
      unfold convergence_loop at h
      cases hrp : run_pass step prs w with
      | error we =>
          simp only [hrp] at h
          exact absurd h (by simp)
      | ok p =>
          obtain ⟨w1, changed⟩ := p
          simp only [hrp] at h
          cases changed with
          | false =>
              simp only [Bool.false_eq_true, if_false] at h
              injection h with h
              injection h with h
              obtain ⟨hw1, hn1⟩ := Prod.mk.inj h
              subst hw1
              subst hn1
              refine ⟨le_refl 1, ?_, ?_, ?_⟩
              · simp only [pass_changed, hrp]
              · intro i hi
                omega
              · simp only [pass_state, hrp]
          | true =>
              simp only [if_true] at h
              cases hrec : convergence_loop step prs fuel w1 with
              | none =>
                  simp only [hrec] at h
                  exact absurd h (by simp)
              | some e =>
                  cases e with
                  | error w2 =>
                      simp only [hrec] at h
                      exact absurd h (by simp)
                  | ok p2 =>
                      obtain ⟨w2, m⟩ := p2
                      simp only [hrec] at h
                      injection h with h
                      injection h with h
                      obtain ⟨hw2, hn2⟩ := Prod.mk.inj h
                      subst hw2
                      subst hn2
                      obtain ⟨hm1, hm2, hm3, hm4⟩ := ih w1 w2 m hrec
                      refine ⟨by omega, ?_, ?_, ?_⟩
                      · rcases hmeq : m with _ | k
                        · omega
                        · have hg : k + 1 + 1 - 1 = k + 1 := by omega
                          rw [hg]
                          simp only [pass_changed, hrp]
                          have hk : k + 1 - 1 = k := by omega
                          rw [hmeq, hk] at hm2
                          exact hm2
                      · intro i hi
                        rcases i with _ | j
                        · simp only [pass_changed, hrp]
                        · simp only [pass_changed, hrp]
                          exact hm3 j (by omega)
                      · simp only [pass_state, hrp]
                        exact hm4

/-- Trivial step that changes the world once, for the C5 witness: it
reports a propagated change exactly when the push counter is still 0. -/
def c5_step : PullReq → World → Except World (World × Bool) :=
  fun _ w => Except.ok ({ w with pushCount := w.pushCount + 1 }, decide (w.pushCount = 0))

/-- Witness for C5: a run that stops after two passes had a quiet second
pass. -/
theorem c5_witness : pass_changed c5_step [pr4] (2 - 1) w4 = some false :=
  (c5_loop_stops_at_first_quiet_pass c5_step [pr4] 3 w4
    { w4 with pushCount := 2 } 2 rfl).2.1

theorem rebase_pr_noop (prim : PullReq → World → RebaseOutcome) (env : Nat → PushResult)
    (pr : PullReq) (w : World) (t bt h0 : CommitId)
    (hh : lookupRef w.refs pr.headRef = some t)
    (ho : lookupRef w.refs ("origin/" ++ pr.headRef) = some t)
    (hb : lookupRef w.refs pr.baseRef = some bt)
    (hw : lookupRef w.refs w.headRef = some h0)
    (hwt : w.worktree = h0) (hd : w.dirty = false)
    (hp : ∀ w' : World, w'.refs = w.refs → prim pr w' = RebaseOutcome.success t) :
    rebase_pr prim env pr w = Except.ok (w, false) := by
  have hprim := hp { w with headRef := pr.headRef, worktree := t, dirty := false } rfl
  unfold rebase_pr with_revert_to_current_branch rebase_pr_inner
  simp only [hh, hb, hprim, updateRef_self w.refs pr.headRef t hh,
    is_safe_branch_refname, ho, is_safe_branch_self, hw]
  obtain ⟨gg, rs, hr, wt, d, rr, rh, pc⟩ := w
  simp only at hwt hd
  subst hwt
  subst hd
  rfl

theorem run_pass_fixpoint (step : PullReq → World → Except World (World × Bool))
    (prs : List PullReq) (w : World)
    (h : ∀ pr ∈ prs, step pr w = Except.ok (w, false)) :
    run_pass step prs w = Except.ok (w, false) := by
  induction prs with
  | nil => rfl
  | cons pr rest ih =>
      have h1 := h pr (by simp)
      have h2 : ∀ x ∈ rest, step x w = Except.ok (w, false) := by
        intro x hx
        exact h x (by simp [hx])
      unfold run_pass
      simp only [h1, ih h2]
      rfl

/-- C6: starting from the state a successful run leaves behind - clean
work tree, every safe change request's head equal to its remote tracking
tip, bases resolving, and the replay a no-op on that state - the
convergence loop changes nothing, attempts no push, and exits after
exactly one pass with the world unchanged. -/
theorem c6_second_run_is_quiet
    (prim : PullReq → World → RebaseOutcome) (env : Nat → PushResult)
    (prs : List PullReq) (w : World) (h0 : CommitId)
    (hw : lookupRef w.refs w.headRef = some h0)
    (hwt : w.worktree = h0) (hd : w.dirty = false)
    (hsafe : ∀ pr ∈ prs, ∃ t bt,
        lookupRef w.refs pr.headRef = some t
        ∧ lookupRef w.refs ("origin/" ++ pr.headRef) = some t
        ∧ lookupRef w.refs pr.baseRef = some bt
        ∧ ∀ w' : World, w'.refs = w.refs → prim pr w' = RebaseOutcome.success t) :
    ∀ fuel : Nat, convergence_loop (rebase_pr prim env) prs (fuel + 1) w
      = some (Except.ok (w, 1)) := by
  intro fuel
  have hstep : ∀ pr ∈ prs, rebase_pr prim env pr w = Except.ok (w, false) := by
    intro pr hpr
    obtain ⟨t, bt, hh, ho, hb, hp⟩ := hsafe pr hpr
    exact rebase_pr_noop prim env pr w t bt h0 hh ho hb hw hwt hd hp
  have hrp := run_pass_fixpoint (rebase_pr prim env) prs w hstep
  unfold convergence_loop
  simp [hrp]

/-- Change request a into m, already converged, for the C6 witness. -/
def c6pr : PullReq := { title := "t", headRef := "a", baseRef := "m" }

/-- Converged world for the C6 witness: branch a equals origin/a. -/
def c6w : World :=
  { graph := g3, refs := [("m", 1), ("a", 2), ("origin/a", 2)], headRef := "m",
    worktree := 1, dirty := false, remoteRefs := [], remoteHistory := [], pushCount := 0 }

/-- Replay primitive for the C6 witness: the rebase of a is a no-op. -/
def c6prim : PullReq → World → RebaseOutcome := fun _ _ => RebaseOutcome.success 2

/-- Push environment for the C6 witness (never consulted). -/
def c6env : Nat → PushResult := fun _ => PushResult.accepted

/-- Witness for C6: the converged world runs one quiet pass and stops. -/
theorem c6_witness :
    convergence_loop (rebase_pr c6prim c6env) [c6pr] (0 + 1) c6w
      = some (Except.ok (c6w, 1)) :=
  c6_second_run_is_quiet c6prim c6env [c6pr] c6w 1 rfl rfl rfl
    (by
      intro pr hpr
      simp only [List.mem_singleton] at hpr
      subst hpr
      exact ⟨2, 1, rfl, rfl, rfl, fun w' _ => rfl⟩) 0
